import Mathlib

/-!
Verification development for the TradeSync quote/invoice totals engine and
bank-transaction reconciliation logic.

The definitions below are a shallow embedding of the repository's code:

* the quote totals calculator (calculateSectionLabour, calculateSectionMaterials,
  calculateSectionPrice, calculateDiscount, calculateVat, calculateCis,
  calculatePartPayment, calculateQuoteTotals);
* the reconciliation suggestion matcher from the reconciliation page
  (the auto-match effect over transactions, expenses and paid invoices);
* the SQL functions reconcile_transaction_multi and unreconcile_transaction
  from the multi-reconciliation migration, modelled as explicit state
  transformers over an in-memory database state.

JavaScript numbers are modelled as rationals; optional (possibly undefined)
fields are modelled with Option.  The JS nullish-coalescing operator is
Option.getD; the JS truthiness test on a number treats 0 and undefined alike,
which is modelled by comparing Option.getD 0 with 0.
-/

namespace TradeSync

/-! ### Data model for the totals engine -/

/-- A material line item of a section: only the fields read by the
calculators are modelled (isHeading and totalPrice). -/
structure LineItem where
  isHeading : Bool
  totalPrice : Option ℚ
deriving DecidableEq

/-- An itemized labour entry: hours and an optional per-item rate override. -/
structure LabourItem where
  hours : ℚ
  rate : Option ℚ
deriving DecidableEq

/-- A section of a quote/invoice document. -/
structure QuoteSection where
  items : Option (List LineItem)
  labourItems : Option (List LabourItem)
  labourHours : Option ℚ
  labourRate : Option ℚ
  labourCost : Option ℚ
  subsectionPrice : Option ℚ
deriving DecidableEq

/-- Discount / part-payment type tag. -/
inductive DiscountType where
  | percentage
  | fixed
deriving DecidableEq

/-- The document-level fields of a quote/invoice read by the totals engine. -/
structure Quote where
  sections : Option (List QuoteSection)
  labourRate : Option ℚ
  markupPercent : Option ℚ
  discountType : Option DiscountType
  discountValue : Option ℚ
  taxPercent : Option ℚ
  cisPercent : Option ℚ
deriving DecidableEq

/-- Calculation options (business-level toggles plus the default labour rate). -/
structure CalculationOptions where
  enableVat : Bool
  enableCis : Bool
  showVat : Bool
  showCis : Bool
  defaultLabourRate : ℚ
deriving DecidableEq

/-- Per-document display options; only the two fields read by
calculateQuoteTotals are modelled. -/
structure QuoteDisplayOptions where
  showVat : Bool
  showCis : Bool
deriving DecidableEq

/-- The result record of calculateQuoteTotals, field for field. -/
structure QuoteTotals where
  materialsTotal : ℚ
  labourTotal : ℚ
  sectionsTotal : ℚ
  clientSubtotal : ℚ
  discountAmount : ℚ
  afterDiscount : ℚ
  taxAmount : ℚ
  cisAmount : ℚ
  grandTotal : ℚ
deriving DecidableEq

/-- The fields of a QuoteTotals record, enumerated in declaration order. -/
def QuoteTotals.fieldList (t : QuoteTotals) : List ℚ :=
  [t.materialsTotal, t.labourTotal, t.sectionsTotal, t.clientSubtotal,
   t.discountAmount, t.afterDiscount, t.taxAmount, t.cisAmount, t.grandTotal]

/-! ### The totals engine -/

/-- Labour cost of a single section (calculateSectionLabour): itemized labour
takes priority, then the direct labourCost override, then hours times the
effective rate, where the effective rate falls back from the section rate to
the quote rate to the default rate. -/
def calculateSectionLabour (s : QuoteSection) (quoteLabourRate : Option ℚ)
    (defaultLabourRate : ℚ) : ℚ :=
  let effectiveRate := s.labourRate.getD (quoteLabourRate.getD defaultLabourRate)
  if (s.labourItems.getD []).length > 0 then
    (s.labourItems.getD []).foldl
      (fun sum item => sum + item.hours * (item.rate.getD effectiveRate)) 0
  else
    match s.labourCost with
    | some c => c
    | none => (s.labourHours.getD 0) * effectiveRate

/-- Materials total of a section (calculateSectionMaterials): sum of
totalPrice over items that are not headings, missing prices counting as 0. -/
def calculateSectionMaterials (s : QuoteSection) : ℚ :=
  ((s.items.getD []).filter (fun item => !item.isHeading)).foldl
    (fun sum item => sum + item.totalPrice.getD 0) 0

/-- Effective price of a section (calculateSectionPrice): the
subsectionPrice override when defined, otherwise materials plus labour. -/
def calculateSectionPrice (s : QuoteSection) (materialsTotal labourTotal : ℚ) : ℚ :=
  match s.subsectionPrice with
  | some p => p
  | none => materialsTotal + labourTotal

/-- Discount amount (calculateDiscount): 0 on a falsy value, a percentage of
the subtotal for the percentage type, the value verbatim otherwise. -/
def calculateDiscount (subtotal : ℚ) (discountType : Option DiscountType)
    (discountValue : Option ℚ) : ℚ :=
  if discountValue.getD 0 = 0 then 0
  else
    match discountType with
    | some DiscountType.percentage => subtotal * (discountValue.getD 0 / 100)
    | _ => discountValue.getD 0

/-- VAT amount (calculateVat): gated on both enableVat and showVat. -/
def calculateVat (afterDiscount : ℚ) (taxPercent : Option ℚ)
    (enableVat showVat : Bool) : ℚ :=
  if !enableVat || !showVat then 0
  else afterDiscount * ((taxPercent.getD 0) / 100)

/-- CIS deduction (calculateCis): gated on both enableCis and showCis,
computed on labour only. -/
def calculateCis (labourTotal : ℚ) (cisPercent : Option ℚ)
    (enableCis showCis : Bool) : ℚ :=
  if !enableCis || !showCis then 0
  else labourTotal * ((cisPercent.getD 0) / 100)

/-- Part payment amount (calculatePartPayment): 0 unless enabled with a
truthy value; percentage of the grand total or the value verbatim. -/
def calculatePartPayment (grandTotal : ℚ) (enabled : Option Bool)
    (type : Option DiscountType) (value : Option ℚ) : ℚ :=
  if !(enabled.getD false) || value.getD 0 = 0 then 0
  else
    match type with
    | some DiscountType.percentage => grandTotal * (value.getD 0 / 100)
    | _ => value.getD 0

/-- The main totals function (calculateQuoteTotals), combining the
per-section materials, labour and price sums with markup, discount, VAT and
CIS exactly as the source does. -/
def calculateQuoteTotals (quote : Quote) (options : CalculationOptions)
    (displayOptions : QuoteDisplayOptions) : QuoteTotals :=
  let sections := quote.sections.getD []
  let markupMultiplier := 1 + (quote.markupPercent.getD 0) / 100
  let acc := sections.foldl
    (fun (acc : ℚ × ℚ × ℚ) s =>
      let sectionMaterials := calculateSectionMaterials s
      let sectionLabour :=
        calculateSectionLabour s quote.labourRate options.defaultLabourRate
      let sectionPrice := calculateSectionPrice s sectionMaterials sectionLabour
      (acc.1 + sectionMaterials, acc.2.1 + sectionLabour, acc.2.2 + sectionPrice))
    (0, 0, 0)
  let materialsTotal := acc.1
  let labourTotal := acc.2.1
  let sectionsTotal := acc.2.2
  let clientSubtotal := sectionsTotal * markupMultiplier
  let discountAmount :=
    calculateDiscount clientSubtotal quote.discountType quote.discountValue
  let afterDiscount := clientSubtotal - discountAmount
  let taxAmount :=
    calculateVat afterDiscount quote.taxPercent options.enableVat displayOptions.showVat
  let cisAmount :=
    calculateCis labourTotal quote.cisPercent options.enableCis displayOptions.showCis
  let grandTotal := (afterDiscount + taxAmount) - cisAmount
  { materialsTotal := materialsTotal
    labourTotal := labourTotal
    sectionsTotal := sectionsTotal
    clientSubtotal := clientSubtotal
    discountAmount := discountAmount
    afterDiscount := afterDiscount
    taxAmount := taxAmount
    cisAmount := cisAmount
    grandTotal := grandTotal }

/-! ### Data model for the reconciliation suggestion matcher

Dates are modelled as rational day numbers (the source divides millisecond
timestamps by 86,400,000, so date differences are fractional days). -/

/-- A bank transaction as read by the matcher. -/
structure BankTransaction where
  id : ℕ
  transaction_date : ℚ
  amount : ℚ
  is_reconciled : Bool
deriving DecidableEq

/-- An expense as read by the matcher. -/
structure Expense where
  id : ℕ
  amount : ℚ
  expense_date : ℚ
  is_reconciled : Bool
deriving DecidableEq

/-- A paid invoice as read by the matcher. -/
structure Invoice where
  id : ℕ
  total : ℚ
  updated_at : ℚ
deriving DecidableEq

/-- Confidence level attached to a suggested match. -/
inductive Confidence where
  | high
  | medium
  | low
deriving DecidableEq

/-- A suggested reconciliation match (the reason string is not modelled). -/
structure SuggestedMatch where
  transaction : BankTransaction
  expense : Option Expense
  invoice : Option Invoice
  confidence : Confidence
deriving DecidableEq

/-! ### The suggestion matcher -/

/-- Expense candidate filter of the auto-match effect: exact amount within
0.01 inside a 7-day window, or the amount grossed up by 20 percent VAT
within 0.01 inside the same window. -/
def expenseMatches (tx : BankTransaction) (exp : Expense) : Bool :=
  let txAmount := |tx.amount|
  let daysDiff := |tx.transaction_date - exp.expense_date|
  if |txAmount - exp.amount| < 1/100 ∧ daysDiff ≤ 7 then true
  else
    let amountWithVat := exp.amount * (6/5)
    if |txAmount - amountWithVat| < 1/100 ∧ daysDiff ≤ 7 then true
    else false

/-- Invoice candidate filter of the auto-match effect: exact amount within
0.01 inside a 30-day window. -/
def invoiceMatches (tx : BankTransaction) (inv : Invoice) : Bool :=
  let daysDiff := |tx.transaction_date - inv.updated_at|
  decide (|tx.amount - inv.total| < 1/100 ∧ daysDiff ≤ 30)

/-- The suggestion record pushed for an expense match: confidence is high
on an exact amount within 2 days, medium within 5 days, low otherwise. -/
def expenseMatchResult (tx : BankTransaction) (bestMatch : Expense) :
    SuggestedMatch :=
  let txAmount := |tx.amount|
  let daysDiff := |tx.transaction_date - bestMatch.expense_date|
  let exactAmount := |txAmount - bestMatch.amount| < 1/100
  { transaction := tx
    expense := some bestMatch
    invoice := none
    confidence :=
      if exactAmount ∧ daysDiff ≤ 2 then Confidence.high
      else if daysDiff ≤ 5 then Confidence.medium
      else Confidence.low }

/-- The suggestion record pushed for an invoice match: confidence is high
within 7 days, medium within 14 days, low otherwise. -/
def invoiceMatchResult (tx : BankTransaction) (bestMatch : Invoice) :
    SuggestedMatch :=
  let daysDiff := |tx.transaction_date - bestMatch.updated_at|
  { transaction := tx
    expense := none
    invoice := some bestMatch
    confidence :=
      if daysDiff ≤ 7 then Confidence.high
      else if daysDiff ≤ 14 then Confidence.medium
      else Confidence.low }

/-- Outgoing branch of the auto-match effect: for a negative-amount
transaction, take the first matching expense from the pool. -/
def expenseSuggestion (tx : BankTransaction) (pool : List Expense) :
    List SuggestedMatch :=
  if tx.amount < 0 then
    match pool.filter (fun e => expenseMatches tx e) with
    | [] => []
    | bestMatch :: _ => [expenseMatchResult tx bestMatch]
  else []

/-- Incoming branch of the auto-match effect: for a positive-amount
transaction, take the first matching paid invoice. -/
def invoiceSuggestion (tx : BankTransaction) (invs : List Invoice) :
    List SuggestedMatch :=
  if tx.amount > 0 then
    match invs.filter (fun inv => invoiceMatches tx inv) with
    | [] => []
    | bestMatch :: _ => [invoiceMatchResult tx bestMatch]
  else []

/-- Suggestions contributed by one transaction: the outgoing branch followed
by the incoming branch, as in the source loop body. -/
def suggestionsForTx (tx : BankTransaction) (pool : List Expense)
    (invs : List Invoice) : List SuggestedMatch :=
  expenseSuggestion tx pool ++ invoiceSuggestion tx invs

/-- The whole auto-match pass: unreconciled transactions against
unreconciled expenses and paid invoices, in list order. -/
def generateSuggestions (txs : List BankTransaction) (exps : List Expense)
    (invs : List Invoice) : List SuggestedMatch :=
  let unreconciledTx := txs.filter (fun t => !t.is_reconciled)
  let unreconciledExp := exps.filter (fun e => !e.is_reconciled)
  unreconciledTx.flatMap (fun tx => suggestionsForTx tx unreconciledExp invs)

/-! ### Data model for the SQL reconciliation functions

The database state is modelled as association lists keyed by natural-number
ids (standing in for UUIDs), one per table, plus the list of reconciliation
links.  Only the columns the two SQL functions read or write are modelled. -/

/-- A row of the expenses table (columns touched by reconciliation). -/
structure ExpenseRow where
  amount : ℚ
  is_reconciled : Bool
  reconciled_transaction_id : Option ℕ
deriving DecidableEq

/-- A row of the bank_transactions table (columns touched by reconciliation). -/
structure TxRow where
  is_reconciled : Bool
  reconciled_expense_id : Option ℕ
  reconciled_invoice_id : Option ℕ
deriving DecidableEq

/-- A row of the quotes table as read by reconciliation (invoice total and
paid status). -/
structure QuoteRow where
  total : ℚ
  is_paid : Bool
deriving DecidableEq

/-- A row of the reconciliation_links table. -/
structure LinkRow where
  bank_transaction_id : ℕ
  expense_id : Option ℕ
  invoice_id : Option ℕ
  amount_matched : Option ℚ
deriving DecidableEq

/-- The database state seen by the two reconciliation functions. -/
structure DBState where
  transactions : List (ℕ × TxRow)
  expenses : List (ℕ × ExpenseRow)
  quotes : List (ℕ × QuoteRow)
  links : List LinkRow
deriving DecidableEq

/-- Look up a row by id (first match, as a primary-key lookup). -/
def lookupRow {α : Type} (rows : List (ℕ × α)) (i : ℕ) : Option α :=
  (rows.find? (fun r => r.1 == i)).map (fun r => r.2)

/-- Update every row with the given key, like an SQL UPDATE by primary key. -/
def setRow {α : Type} (rows : List (ℕ × α)) (i : ℕ) (f : α → α) :
    List (ℕ × α) :=
  rows.map (fun p => (p.1, if p.1 == i then f p.2 else p.2))

/-- Whether a (transaction, expense) link already exists, as tested by the
unique constraint on reconciliation_links. -/
def hasExpenseLink (links : List LinkRow) (txId eid : ℕ) : Bool :=
  links.any (fun l => l.bank_transaction_id == txId && l.expense_id == some eid)

/-- Whether a (transaction, invoice) link already exists. -/
def hasInvoiceLink (links : List LinkRow) (txId iid : ℕ) : Bool :=
  links.any (fun l => l.bank_transaction_id == txId && l.invoice_id == some iid)

/-- Marking an expense row reconciled against a transaction, as done by the
UPDATE inside the expense loop. -/
def markRow (txId : ℕ) (r : ExpenseRow) : ExpenseRow :=
  { r with is_reconciled := true, reconciled_transaction_id := some txId }

/-- One iteration of the expense FOREACH loop of
reconcile_transaction_multi: resolve the expense (a missing row violates the
foreign key), insert the link (a duplicate violates the unique constraint)
carrying the expense amount, and mark the expense reconciled with its
back-reference. -/
def applyExpenseLink (txId : ℕ) (st : DBState) (eid : ℕ) :
    Except String DBState :=
  match lookupRow st.expenses eid with
  | none => Except.error "foreign key violation on expense_id"
  | some row =>
    if hasExpenseLink st.links txId eid then
      Except.error "unique violation on (bank_transaction_id, expense_id)"
    else
      Except.ok { st with
        links := st.links ++
          [{ bank_transaction_id := txId
             expense_id := some eid
             invoice_id := none
             amount_matched := some row.amount }]
        expenses := setRow st.expenses eid (markRow txId) }

/-- One iteration of the invoice FOREACH loop: resolve the invoice total and
insert the link; invoices are not flagged. -/
def applyInvoiceLink (txId : ℕ) (st : DBState) (iid : ℕ) :
    Except String DBState :=
  match lookupRow st.quotes iid with
  | none => Except.error "foreign key violation on invoice_id"
  | some row =>
    if hasInvoiceLink st.links txId iid then
      Except.error "unique violation on (bank_transaction_id, invoice_id)"
    else
      Except.ok { st with
        links := st.links ++
          [{ bank_transaction_id := txId
             expense_id := none
             invoice_id := some iid
             amount_matched := some row.total }] }

/-- FOREACH loop over a list of ids, aborting on the first error (an
exception aborts the whole SQL function). -/
def foldLinks (f : DBState → ℕ → Except String DBState) :
    DBState → List ℕ → Except String DBState
  | st, [] => Except.ok st
  | st, i :: rest =>
    match f st i with
    | Except.error msg => Except.error msg
    | Except.ok st1 => foldLinks f st1 rest

/-- The SQL function reconcile_transaction_multi: require the transaction to
exist, clear its existing links, insert the new expense and invoice links,
and finally mark the transaction reconciled. -/
def reconcileMulti (st : DBState) (txId : ℕ)
    (expenseIds invoiceIds : List ℕ) : Except String DBState :=
  match lookupRow st.transactions txId with
  | none => Except.error "Transaction not found"
  | some _ =>
    let cleared : DBState :=
      { st with
        links := st.links.filter (fun l => !(l.bank_transaction_id == txId)) }
    match foldLinks (applyExpenseLink txId) cleared expenseIds with
    | Except.error msg => Except.error msg
    | Except.ok st1 =>
      match foldLinks (applyInvoiceLink txId) st1 invoiceIds with
      | Except.error msg => Except.error msg
      | Except.ok st2 =>
        Except.ok { st2 with
          transactions := setRow st2.transactions txId
            (fun r => { r with is_reconciled := true }) }

/-- The SQL function unreconcile_transaction: clear flags and back-reference
of every expense linked to this transaction, delete its links, and clear the
transaction's reconciled flag and legacy references.  The quotes table is
not touched. -/
def unreconcileTransaction (st : DBState) (txId : ℕ) : DBState :=
  { st with
    expenses := st.expenses.map (fun p =>
      (p.1,
        if p.2.reconciled_transaction_id == some txId then
          { p.2 with is_reconciled := false, reconciled_transaction_id := none }
        else p.2))
    links := st.links.filter (fun l => !(l.bank_transaction_id == txId))
    transactions := setRow st.transactions txId
      (fun r => { r with is_reconciled := false
                         reconciled_expense_id := none
                         reconciled_invoice_id := none }) }

/-! ### Canonical form of the reconciliation functions -/

/-- Marking a list of expense ids reconciled in sequence, as the expense
loop does. -/
def markExpenses (E : List (ℕ × ExpenseRow)) (txId : ℕ) (eids : List ℕ) :
    List (ℕ × ExpenseRow) :=
  eids.foldl (fun es eid => setRow es eid (markRow txId)) E

/-- The expense links inserted for a list of expense ids, carrying each
expense's amount. -/
def expLinksOf (E : List (ℕ × ExpenseRow)) (txId : ℕ) (eids : List ℕ) :
    List LinkRow :=
  eids.map (fun eid =>
    { bank_transaction_id := txId
      expense_id := some eid
      invoice_id := none
      amount_matched := (lookupRow E eid).map (fun r => r.amount) })

/-- The invoice links inserted for a list of invoice ids, carrying each
invoice's total. -/
def invLinksOf (Q : List (ℕ × QuoteRow)) (txId : ℕ) (iids : List ℕ) :
    List LinkRow :=
  iids.map (fun iid =>
    { bank_transaction_id := txId
      expense_id := none
      invoice_id := some iid
      amount_matched := (lookupRow Q iid).map (fun r => r.total) })

/-- The state after clearing a transaction's existing links. -/
def clearedState (st : DBState) (txId : ℕ) : DBState :=
  { st with links := st.links.filter (fun l => !(l.bank_transaction_id == txId)) }

/-- The end state of a successful reconcile_transaction_multi call: the
transaction flagged, the listed expenses marked, the quotes untouched, and
the transaction's links replaced by the fresh expense and invoice links. -/
def reconResult (st : DBState) (txId : ℕ) (eids iids : List ℕ) : DBState :=
  { transactions := setRow st.transactions txId
      (fun r => { r with is_reconciled := true })
    expenses := markExpenses st.expenses txId eids
    quotes := st.quotes
    links := st.links.filter (fun l => !(l.bank_transaction_id == txId)) ++
      expLinksOf st.expenses txId eids ++ invLinksOf st.quotes txId iids }

/-- The intermediate state after the expense loop of a successful call. -/
def expensePhase (st : DBState) (txId : ℕ) (eids : List ℕ) : DBState :=
  { clearedState st txId with
    expenses := markExpenses st.expenses txId eids
    links := (clearedState st txId).links ++ expLinksOf st.expenses txId eids }

/-- The intermediate state after the invoice loop of a successful call. -/
def invoicePhase (st : DBState) (txId : ℕ) (eids iids : List ℕ) : DBState :=
  { expensePhase st txId eids with
    links := (expensePhase st txId eids).links ++ invLinksOf st.quotes txId iids }

/-! ### Concrete demonstration values -/

/-- The section of the end-to-end example: one non-heading item of 100 and
four labour hours. -/
def demoSection : QuoteSection :=
  { items := some [{ isHeading := false, totalPrice := some 100 }]
    labourItems := none
    labourHours := some 4
    labourRate := none
    labourCost := none
    subsectionPrice := none }

/-- The document of the end-to-end example: labour rate 50, markup 0,
tax 20, no discount. -/
def demoQuote : Quote :=
  { sections := some [demoSection]
    labourRate := some 50
    markupPercent := some 0
    discountType := none
    discountValue := none
    taxPercent := some 20
    cisPercent := none }

/-- Calculation options of the end-to-end example: VAT enabled, CIS
disabled. -/
def demoOptions : CalculationOptions :=
  { enableVat := true, enableCis := false, showVat := true, showCis := true
    defaultLabourRate := 65 }

/-- Display options of the end-to-end example: VAT shown. -/
def demoDisplay : QuoteDisplayOptions :=
  { showVat := true, showCis := true }

/-- A section with a direct labour cost of zero and nonzero hours. -/
def demoCostSection : QuoteSection :=
  { items := none, labourItems := none, labourHours := some 8
    labourRate := none, labourCost := some 0, subsectionPrice := none }

/-- A section with hours-based labour only. -/
def demoHoursSection : QuoteSection :=
  { items := none, labourItems := none, labourHours := some 8
    labourRate := none, labourCost := none, subsectionPrice := none }

/-- A section whose subsection price override is zero. -/
def demoOverrideSection : QuoteSection :=
  { items := none, labourItems := none, labourHours := none
    labourRate := none, labourCost := none, subsectionPrice := some 0 }

/-- An unreconciled outgoing transaction of minus 120 on day 0. -/
def demoTx : BankTransaction :=
  { id := 1, transaction_date := 0, amount := -120, is_reconciled := false }

/-- An unreconciled expense of 100 on day 1 (a VAT-grossed match for
demoTx). -/
def demoExpense : Expense :=
  { id := 10, amount := 100, expense_date := 1, is_reconciled := false }

/-- An unreconciled transaction whose amount is exactly zero. -/
def demoZeroTx : BankTransaction :=
  { id := 2, transaction_date := 0, amount := 0, is_reconciled := false }

/-- A database state with one transaction, one expense and one paid
invoice, nothing reconciled. -/
def demoDB : DBState :=
  { transactions := [(1, { is_reconciled := false, reconciled_expense_id := none
                           reconciled_invoice_id := none })]
    expenses := [(10, { amount := 25, is_reconciled := false
                        reconciled_transaction_id := none })]
    quotes := [(20, { total := 80, is_paid := true })]
    links := [] }

/-- The state after reconciling transaction 1 of demoDB against expense 10
and invoice 20. -/
def demoAfterEI : DBState :=
  { transactions := [(1, { is_reconciled := true, reconciled_expense_id := none
                           reconciled_invoice_id := none })]
    expenses := [(10, { amount := 25, is_reconciled := true
                        reconciled_transaction_id := some 1 })]
    quotes := [(20, { total := 80, is_paid := true })]
    links := [{ bank_transaction_id := 1, expense_id := some 10
                invoice_id := none, amount_matched := some 25 },
              { bank_transaction_id := 1, expense_id := none
                invoice_id := some 20, amount_matched := some 80 }] }

/-- The state after reconciling transaction 1 of demoDB against expense 10
only. -/
def demoAfterE : DBState :=
  { transactions := [(1, { is_reconciled := true, reconciled_expense_id := none
                           reconciled_invoice_id := none })]
    expenses := [(10, { amount := 25, is_reconciled := true
                        reconciled_transaction_id := some 1 })]
    quotes := [(20, { total := 80, is_paid := true })]
    links := [{ bank_transaction_id := 1, expense_id := some 10
                invoice_id := none, amount_matched := some 25 }] }

/-- The state after reconciling transaction 1 of demoDB against empty id
lists: no links, yet the transaction is flagged reconciled. -/
def demoAfterEmpty : DBState :=
  { transactions := [(1, { is_reconciled := true, reconciled_expense_id := none
                           reconciled_invoice_id := none })]
    expenses := [(10, { amount := 25, is_reconciled := false
                        reconciled_transaction_id := none })]
    quotes := [(20, { total := 80, is_paid := true })]
    links := [] }

/-! ### Helper lemmas -/

/-- Folding addition of a measure over a list is the starting value plus the
sum of the measures. -/
theorem foldl_add_map {α : Type} (h : α → ℚ) :
    ∀ (l : List α) (a : ℚ),
      l.foldl (fun sum x => sum + h x) a = a + (l.map h).sum := by
  intro l
  induction l with
  | nil => intro a; simp
  | cons x xs ih =>
    intro a
    simp only [List.foldl_cons, List.map_cons, List.sum_cons]
    rw [ih]
    ring

/-- Any suggestion contributed by one transaction carries that transaction. -/
theorem transaction_of_mem_suggestionsForTx (tx : BankTransaction)
    (pool : List Expense) (invs : List Invoice) (m : SuggestedMatch)
    (hm : m ∈ suggestionsForTx tx pool invs) : m.transaction = tx := by
  unfold suggestionsForTx expenseSuggestion invoiceSuggestion at hm
  rcases List.mem_append.mp hm with h | h
  · by_cases hneg : tx.amount < 0
    · rw [if_pos hneg] at h
      rcases hpf : pool.filter (fun e => expenseMatches tx e) with _ | ⟨b, rest⟩
      · rw [hpf] at h
        exact absurd h (List.not_mem_nil m)
      · rw [hpf] at h
        rcases List.mem_singleton.mp h with rfl
        rfl
    · rw [if_neg hneg] at h
      exact absurd h (List.not_mem_nil m)
  · by_cases hpos : tx.amount > 0
    · rw [if_pos hpos] at h
      rcases hpf : invs.filter (fun inv => invoiceMatches tx inv) with _ | ⟨b, rest⟩
      · rw [hpf] at h
        exact absurd h (List.not_mem_nil m)
      · rw [hpf] at h
        rcases List.mem_singleton.mp h with rfl
        rfl
    · rw [if_neg hpos] at h
      exact absurd h (List.not_mem_nil m)

/-! ### Claim theorems for the suggestion matcher -/

/-- C3: for an unreconciled outgoing transaction, an expense qualifies
exactly when the absolute date difference is at most 7 days and either the
absolute amount matches within 0.01 or the amount grossed up by 20 percent
VAT matches within 0.01; the first qualifying expense in iteration order is
chosen, a transaction yields at most one suggestion, a transaction without
qualifying candidate yields none, and the full pass iterates unreconciled
transactions against unreconciled expenses. -/
theorem c3_outgoing_suggestions (tx : BankTransaction) (exps : List Expense)
    (invs : List Invoice) (htx : tx.amount < 0) :
    (∀ e : Expense, expenseMatches tx e = true ↔
      (|tx.transaction_date - e.expense_date| ≤ 7 ∧
        (abs (|tx.amount| - e.amount) < 1/100 ∨
         abs (|tx.amount| - e.amount * (6/5)) < 1/100))) ∧
    (suggestionsForTx tx exps invs).length ≤ 1 ∧
    (∀ (e : Expense) (rest : List Expense),
      exps.filter (fun x => expenseMatches tx x) = e :: rest →
      suggestionsForTx tx exps invs = [expenseMatchResult tx e]) ∧
    (exps.filter (fun x => expenseMatches tx x) = [] →
      suggestionsForTx tx exps invs = []) ∧
    (∀ (txs : List BankTransaction) (allExps : List Expense),
      generateSuggestions txs allExps invs =
        (txs.filter (fun t => !t.is_reconciled)).flatMap
          (fun t => suggestionsForTx t
            (allExps.filter (fun e => !e.is_reconciled)) invs)) := by
  have hinv : invoiceSuggestion tx invs = [] := by
    unfold invoiceSuggestion
    rw [if_neg (lt_asymm htx)]
  refine ⟨?_, ?_, ?_, ?_, fun txs allExps => rfl⟩
  · intro e
    simp only [expenseMatches]
    split_ifs with h1 h2
    · simp only [true_iff]
      exact ⟨h1.2, Or.inl h1.1⟩
    · simp only [true_iff]
      exact ⟨h2.2, Or.inr h2.1⟩
    · simp only [Bool.false_eq_true, false_iff, not_and, not_or]
      intro hd
      constructor
      · intro hc
        exact h1 ⟨hc, hd⟩
      · intro hc
        exact h2 ⟨hc, hd⟩
  · unfold suggestionsForTx
    rw [hinv, List.append_nil]
    unfold expenseSuggestion
    rw [if_pos htx]
    rcases hf : exps.filter (fun e => expenseMatches tx e) with _ | ⟨b, rest⟩
    · simp
    · simp
  · intro e rest hf
    unfold suggestionsForTx
    rw [hinv, List.append_nil]
    unfold expenseSuggestion
    rw [if_pos htx, hf]
  · intro hf
    unfold suggestionsForTx
    rw [hinv, List.append_nil]
    unfold expenseSuggestion
    rw [if_pos htx, hf]

/-- C3 witness: the outgoing transaction of minus 120 on day 0 against the
expense of 100 on day 1 produces exactly its VAT-grossed suggestion, and at
most one suggestion overall. -/
theorem c3_outgoing_suggestions_witness :
    (suggestionsForTx demoTx [demoExpense] []).length ≤ 1 ∧
    suggestionsForTx demoTx [demoExpense] [] =
      [expenseMatchResult demoTx demoExpense] := by
  have habs : |(-120 : ℚ)| = 120 := by
    rw [abs_of_nonpos] <;> norm_num
  have hmatch : expenseMatches demoTx demoExpense = true := by
    simp only [expenseMatches, demoTx, demoExpense, habs]
    norm_num
  have h := c3_outgoing_suggestions demoTx [demoExpense] [] (by norm_num [demoTx])
  refine ⟨h.2.1, h.2.2.1 demoExpense [] ?_⟩
  simp [List.filter, hmatch]

/-- C10: a transaction whose amount is exactly zero contributes no
suggestion (the outgoing branch needs a strictly negative and the incoming
branch a strictly positive amount), and consequently every suggestion
produced by the full pass belongs to a transaction of nonzero amount. -/
theorem c10_zero_amount_yields_no_suggestion :
    (∀ (tx : BankTransaction) (pool : List Expense) (invs : List Invoice),
      tx.amount = 0 → suggestionsForTx tx pool invs = []) ∧
    (∀ (txs : List BankTransaction) (exps : List Expense)
      (invs : List Invoice) (m : SuggestedMatch),
      m ∈ generateSuggestions txs exps invs → m.transaction.amount ≠ 0) := by
  have hzero : ∀ (tx : BankTransaction) (pool : List Expense)
      (invs : List Invoice), tx.amount = 0 →
      suggestionsForTx tx pool invs = [] := by
    intro tx pool invs h0
    unfold suggestionsForTx expenseSuggestion invoiceSuggestion
    rw [if_neg (by rw [h0]; exact lt_irrefl 0),
      if_neg (by rw [h0]; exact lt_irrefl 0)]
    rfl
  refine ⟨hzero, ?_⟩
  intro txs exps invs m hm h0
  unfold generateSuggestions at hm
  rcases List.mem_flatMap.mp hm with ⟨t, ht, hmt⟩
  have hEq := transaction_of_mem_suggestionsForTx t _ invs m hmt
  rw [hEq] at h0
  rw [hzero t _ invs h0] at hmt
  exact absurd hmt (List.not_mem_nil m)

/-- C10 witness: the zero-amount transaction produces no suggestion against
a nonempty expense pool. -/
theorem c10_zero_amount_yields_no_suggestion_witness :
    suggestionsForTx demoZeroTx [demoExpense] [] = [] :=
  c10_zero_amount_yields_no_suggestion.1 demoZeroTx [demoExpense] [] rfl

/-! ### Claim theorems for the totals engine -/

/-- C1: calculateQuoteTotals satisfies clientSubtotal = sectionsTotal times
one plus the markup fraction, afterDiscount = clientSubtotal minus
discountAmount, and grandTotal = afterDiscount plus taxAmount minus
cisAmount, for every document and options; and on the end-to-end example
(one section with materials 100, labour 4 times 50, markup 0, tax 20
percent with VAT enabled and shown, CIS disabled) it returns exactly the
totals 100, 200, 300, 300, 300, 60, 0 and 360. -/
theorem c1_quote_totals_formulas (q : Quote) (o : CalculationOptions)
    (d : QuoteDisplayOptions) :
    (calculateQuoteTotals q o d).clientSubtotal =
      (calculateQuoteTotals q o d).sectionsTotal *
        (1 + (q.markupPercent.getD 0) / 100) ∧
    (calculateQuoteTotals q o d).afterDiscount =
      (calculateQuoteTotals q o d).clientSubtotal -
        (calculateQuoteTotals q o d).discountAmount ∧
    (calculateQuoteTotals q o d).grandTotal =
      (calculateQuoteTotals q o d).afterDiscount +
        (calculateQuoteTotals q o d).taxAmount -
        (calculateQuoteTotals q o d).cisAmount ∧
    calculateQuoteTotals demoQuote demoOptions demoDisplay =
      { materialsTotal := 100, labourTotal := 200, sectionsTotal := 300
        clientSubtotal := 300, discountAmount := 0, afterDiscount := 300
        taxAmount := 60, cisAmount := 0, grandTotal := 360 } := by
  refine ⟨rfl, rfl, rfl, ?_⟩
  simp only [calculateQuoteTotals, demoQuote, demoSection, demoOptions, demoDisplay,
    calculateSectionMaterials, calculateSectionLabour, calculateSectionPrice,
    calculateDiscount, calculateVat, calculateCis,
    Option.getD_some, Option.getD_none, List.foldl_cons, List.foldl_nil,
    List.filter, QuoteTotals.mk.injEq]
  norm_num

/-- C2: calculateSectionLabour follows strict precedence: a non-empty
labourItems list yields the sum of hours times the per-item or effective
rate; otherwise a defined labourCost (zero included) is returned verbatim;
otherwise hours (defaulting to 0) times the effective rate, where the
effective rate is the first defined of section rate, document rate and
default rate; and the section with labourItems of 5 hours, labourCost 100
and rate 50 yields 250, not 100. -/
theorem c2_section_labour_precedence (s : QuoteSection) (qr : Option ℚ)
    (dr : ℚ) :
    (s.labourItems.getD [] ≠ [] →
      calculateSectionLabour s qr dr =
        ((s.labourItems.getD []).map
          (fun item =>
            item.hours * (item.rate.getD (s.labourRate.getD (qr.getD dr))))).sum) ∧
    (∀ c, s.labourItems.getD [] = [] → s.labourCost = some c →
      calculateSectionLabour s qr dr = c) ∧
    (s.labourItems.getD [] = [] → s.labourCost = none →
      calculateSectionLabour s qr dr =
        (s.labourHours.getD 0) * (s.labourRate.getD (qr.getD dr))) ∧
    calculateSectionLabour
      { items := none, labourItems := some [{ hours := 5, rate := none }]
        labourHours := none, labourRate := none, labourCost := some 100
        subsectionPrice := none } (some 50) dr = 250 := by
  refine ⟨?_, ?_, ?_, ?_⟩
  · intro hne
    have hlen : (s.labourItems.getD []).length > 0 := List.length_pos.mpr hne
    simp only [calculateSectionLabour, if_pos hlen]
    rw [foldl_add_map]
    ring
  · intro c hni hc
    simp [calculateSectionLabour, hni, hc]
  · intro hni hc
    simp [calculateSectionLabour, hni, hc]
  · norm_num [calculateSectionLabour]

/-- C2 witness: concrete instances of the labour precedence rules: a
labourCost of 0 wins over 8 hours, and hours-based labour uses the document
rate. -/
theorem c2_section_labour_precedence_witness :
    calculateSectionLabour demoCostSection (some 50) 65 = 0 ∧
    calculateSectionLabour demoHoursSection (some 50) 65 = 400 := by
  constructor
  · exact (c2_section_labour_precedence demoCostSection (some 50) 65).2.1 0 rfl rfl
  · have h := (c2_section_labour_precedence demoHoursSection (some 50) 65).2.2.1 rfl rfl
    norm_num [demoHoursSection] at h
    exact h

/-- C6: the materials total is the sum of totalPrice (defaulting to 0) over
non-heading items, and the section price is the subsectionPrice override
whenever defined, including zero, and materials plus labour otherwise; in
particular a section with materials 100, labour 200 and subsectionPrice 0
has section price 0. -/
theorem c6_section_materials_and_price (s : QuoteSection) (m l : ℚ) :
    calculateSectionMaterials s =
      (((s.items.getD []).filter (fun item => !item.isHeading)).map
        (fun item => item.totalPrice.getD 0)).sum ∧
    (∀ p, s.subsectionPrice = some p → calculateSectionPrice s m l = p) ∧
    (s.subsectionPrice = none → calculateSectionPrice s m l = m + l) ∧
    calculateSectionPrice demoOverrideSection 100 200 = 0 := by
  refine ⟨?_, ?_, ?_, rfl⟩
  · simp only [calculateSectionMaterials]
    rw [foldl_add_map]
    ring
  · intro p hp
    simp [calculateSectionPrice, hp]
  · intro hp
    simp [calculateSectionPrice, hp]

/-- C6 witness: the zero subsection-price override is honored at the
concrete section with materials 100 and labour 200. -/
theorem c6_section_materials_and_price_witness :
    calculateSectionPrice demoOverrideSection 100 200 = 0 :=
  (c6_section_materials_and_price demoOverrideSection 100 200).2.1 0 rfl

/-- C7: calculateDiscount returns 0 on a falsy discount value, the
percentage of the subtotal for the percentage type, and the value verbatim
for any other type including an undefined one; with the three concrete
instances from the specification. -/
theorem c7_discount (subtotal : ℚ) (dt : Option DiscountType)
    (dv : Option ℚ) :
    (dv.getD 0 = 0 → calculateDiscount subtotal dt dv = 0) ∧
    (∀ v, dv = some v → v ≠ 0 → dt = some DiscountType.percentage →
      calculateDiscount subtotal dt dv = subtotal * (v / 100)) ∧
    (∀ v, dv = some v → v ≠ 0 → dt ≠ some DiscountType.percentage →
      calculateDiscount subtotal dt dv = v) ∧
    calculateDiscount 1000 (some DiscountType.percentage) (some 10) = 100 ∧
    calculateDiscount 1000 none (some 50) = 50 ∧
    calculateDiscount subtotal dt (some 0) = 0 := by
  refine ⟨?_, ?_, ?_, by norm_num [calculateDiscount],
    by norm_num [calculateDiscount], by simp [calculateDiscount]⟩
  · intro h
    simp [calculateDiscount, h]
  · intro v hv hne ht
    subst hv ht
    simp [calculateDiscount, hne]
  · intro v hv hne ht
    subst hv
    cases dt with
    | none => simp [calculateDiscount, hne]
    | some t =>
      cases t with
      | percentage => exact absurd rfl ht
      | fixed => simp [calculateDiscount, hne]

/-- C7 witness: an undefined discount type with value 50 on subtotal 1000
is treated as a fixed discount of 50. -/
theorem c7_discount_witness : calculateDiscount 1000 none (some 50) = 50 :=
  (c7_discount 1000 none (some 50)).2.2.1 50 rfl (by norm_num) (by simp)

/-- C8 counterexample: the totals record returned by calculateQuoteTotals
does not have eleven fields: its field list has length nine. -/
theorem c8_totals_eleven_fields_counterexample :
    (calculateQuoteTotals demoQuote demoOptions demoDisplay).fieldList.length ≠ 11 := by
  decide

/-- C8 amended: the totals engine entry point returns a flat record of
exactly nine numeric fields (materials, labour, sections, client subtotal,
discount, after-discount, tax, CIS and grand totals); the nine fields
determine the record completely, and the part-payment amount is computed by
the separate function calculatePartPayment rather than being a field of the
record. -/
theorem c8_totals_record_nine_fields :
    (∀ (q : Quote) (o : CalculationOptions) (d : QuoteDisplayOptions),
      (calculateQuoteTotals q o d).fieldList.length = 9) ∧
    (∀ t1 t2 : QuoteTotals, t1.fieldList = t2.fieldList → t1 = t2) := by
  constructor
  · intro q o d
    rfl
  · intro t1 t2 h
    cases t1
    cases t2
    simp only [QuoteTotals.fieldList, List.cons.injEq, and_true] at h
    obtain ⟨h1, h2, h3, h4, h5, h6, h7, h8, h9⟩ := h
    simp [h1, h2, h3, h4, h5, h6, h7, h8, h9]

/-- C8 witness: the field list of the end-to-end example's totals has
length nine, and equal field lists give equal records at a concrete pair. -/
theorem c8_totals_record_nine_fields_witness :
    (calculateQuoteTotals demoQuote demoOptions demoDisplay).fieldList.length = 9 ∧
    calculateQuoteTotals demoQuote demoOptions demoDisplay =
      calculateQuoteTotals demoQuote demoOptions demoDisplay :=
  ⟨c8_totals_record_nine_fields.1 demoQuote demoOptions demoDisplay,
   c8_totals_record_nine_fields.2
     (calculateQuoteTotals demoQuote demoOptions demoDisplay)
     (calculateQuoteTotals demoQuote demoOptions demoDisplay) rfl⟩

/-! ### Helper lemmas for the reconciliation state model -/

/-- Looking up a key after a key-preserving row map applies the row
function of that key pointwise. -/
theorem lookupRow_mapRows {α : Type} (E : List (ℕ × α)) (h : ℕ → α → α)
    (i : ℕ) :
    lookupRow (E.map (fun p => (p.1, h p.1 p.2))) i =
      (lookupRow E i).map (h i) := by
  induction E with
  | nil => rfl
  | cons p rest ih =>
    rcases p with ⟨k, v⟩
    by_cases hk : k = i
    · subst hk
      simp [lookupRow, List.find?]
    · have hb : (k == i) = false := by simp [hk]
      simp only [List.map_cons, lookupRow, List.find?, hb] at ih ⊢
      exact ih

/-- setRow is a key-preserving row map. -/
theorem setRow_eq_mapRows {α : Type} (E : List (ℕ × α)) (i : ℕ) (f : α → α) :
    setRow E i f = E.map (fun p => (p.1, if p.1 == i then f p.2 else p.2)) :=
  rfl

/-- Lookup after setRow: the function is applied exactly at the updated
key. -/
theorem lookupRow_setRow {α : Type} (E : List (ℕ × α)) (i j : ℕ)
    (f : α → α) :
    lookupRow (setRow E i f) j =
      (lookupRow E j).map (fun v => if j == i then f v else v) :=
  lookupRow_mapRows E (fun k v => if k == i then f v else v) j

/-- Marking a row twice is the same as marking it once. -/
theorem markRow_idem (txId : ℕ) (r : ExpenseRow) :
    markRow txId (markRow txId r) = markRow txId r :=
  rfl

/-- Closed form of markExpenses: a pointwise map marking exactly the rows
whose key occurs in the id list. -/
theorem markExpenses_eq_map (txId : ℕ) :
    ∀ (eids : List ℕ) (E : List (ℕ × ExpenseRow)),
      markExpenses E txId eids =
        E.map (fun p =>
          (p.1, if eids.contains p.1 then markRow txId p.2 else p.2)) := by
  intro eids
  induction eids with
  | nil =>
    intro E
    simp [markExpenses]
  | cons a rest ih =>
    intro E
    show markExpenses (setRow E a (markRow txId)) txId rest = _
    rw [ih, setRow_eq_mapRows, List.map_map]
    refine List.map_congr_left ?_
    intro p _
    simp only [Function.comp_apply, List.contains_cons]
    by_cases h1 : p.1 = a
    · have hb : (p.1 == a) = true := by simp [h1]
      by_cases h2 : p.1 ∈ rest
      · simp [hb, h2, markRow_idem]
      · simp [hb, h2]
    · have hb : (p.1 == a) = false := by simp [h1]
      simp [hb]

/-- Lookup after markExpenses. -/
theorem lookupRow_markExpenses (E : List (ℕ × ExpenseRow)) (txId : ℕ)
    (eids : List ℕ) (i : ℕ) :
    lookupRow (markExpenses E txId eids) i =
      (lookupRow E i).map
        (fun v => if eids.contains i then markRow txId v else v) := by
  rw [markExpenses_eq_map]
  exact lookupRow_mapRows E
    (fun k v => if eids.contains k then markRow txId v else v) i

/-- Marking a list of expenses twice is the same as marking it once. -/
theorem markExpenses_idem (E : List (ℕ × ExpenseRow)) (txId : ℕ)
    (eids : List ℕ) :
    markExpenses (markExpenses E txId eids) txId eids =
      markExpenses E txId eids := by
  rw [markExpenses_eq_map, markExpenses_eq_map, List.map_map]
  refine List.map_congr_left ?_
  intro p _
  simp only [Function.comp_apply]
  by_cases h : p.1 ∈ eids
  · simp [h, markRow_idem]
  · simp [h]

/-- Setting the same row twice with an idempotent function is the same as
setting it once. -/
theorem setRow_setRow_idem {α : Type} (E : List (ℕ × α)) (i : ℕ)
    (f : α → α) (hf : ∀ v, f (f v) = f v) :
    setRow (setRow E i f) i f = setRow E i f := by
  rw [setRow_eq_mapRows, setRow_eq_mapRows, List.map_map]
  refine List.map_congr_left ?_
  intro p _
  simp only [Function.comp_apply]
  by_cases h : p.1 = i
  · have hb : (p.1 == i) = true := by simp [h]
    simp [hb, hf]
  · have hb : (p.1 == i) = false := by simp [h]
    simp [hb]

/-- markExpenses preserves the amount of every row. -/
theorem lookupRow_markExpenses_amount (E : List (ℕ × ExpenseRow)) (txId : ℕ)
    (eids : List ℕ) (i : ℕ) :
    (lookupRow (markExpenses E txId eids) i).map (fun r => r.amount) =
      (lookupRow E i).map (fun r => r.amount) := by
  rw [lookupRow_markExpenses, Option.map_map]
  refine congrArg (fun f => Option.map f (lookupRow E i)) ?_
  funext v
  by_cases h : i ∈ eids
  · simp [h, markRow]
  · simp [h]

/-- The expense links carry amounts only, so marking expenses does not
change them. -/
theorem expLinksOf_markExpenses (E : List (ℕ × ExpenseRow)) (txId tx2 : ℕ)
    (eids ids : List ℕ) :
    expLinksOf (markExpenses E tx2 eids) txId ids = expLinksOf E txId ids := by
  unfold expLinksOf
  refine List.map_congr_left ?_
  intro eid _
  have := lookupRow_markExpenses_amount E tx2 eids eid
  simp only [LinkRow.mk.injEq, true_and, and_true]
  exact this

/-- The expense links carry amounts only, so setting a row with markRow
does not change them. -/
theorem expLinksOf_setRow_mark (E : List (ℕ × ExpenseRow)) (txId a tx2 : ℕ)
    (ids : List ℕ) :
    expLinksOf (setRow E a (markRow tx2)) txId ids = expLinksOf E txId ids := by
  unfold expLinksOf
  refine List.map_congr_left ?_
  intro eid _
  simp only [LinkRow.mk.injEq, true_and, and_true]
  rw [lookupRow_setRow, Option.map_map]
  refine congrArg (fun f => Option.map f (lookupRow E eid)) ?_
  funext v
  by_cases h : eid = a
  · have hb : (eid == a) = true := by simp [h]
    simp [hb, markRow]
  · have hb : (eid == a) = false := by simp [h]
    simp [hb]

/-- hasExpenseLink distributes over append. -/
theorem hasExpenseLink_append (l1 l2 : List LinkRow) (txId e : ℕ) :
    hasExpenseLink (l1 ++ l2) txId e =
      (hasExpenseLink l1 txId e || hasExpenseLink l2 txId e) := by
  simp [hasExpenseLink, List.any_append]

/-- hasExpenseLink on a fresh expense link tests the expense id. -/
theorem hasExpenseLink_single (txId e x : ℕ) (amt : Option ℚ) :
    hasExpenseLink
      [{ bank_transaction_id := txId, expense_id := some e
         invoice_id := none, amount_matched := amt }] txId x = (e == x) := by
  simp [hasExpenseLink]

/-- After clearing a transaction's links, no expense link for it remains. -/
theorem hasExpenseLink_cleared (links : List LinkRow) (txId e : ℕ) :
    hasExpenseLink
      (links.filter (fun l => !(l.bank_transaction_id == txId))) txId e =
      false := by
  rw [Bool.eq_false_iff]
  intro hc
  rcases List.any_eq_true.mp hc with ⟨l, hl, hprop⟩
  rcases List.mem_filter.mp hl with ⟨-, hkeep⟩
  simp only [Bool.not_eq_eq_eq_not, Bool.not_true, beq_eq_false_iff_ne] at hkeep
  simp only [Bool.and_eq_true, beq_iff_eq] at hprop
  exact hkeep hprop.1

/-- After clearing a transaction's links, no invoice link for it remains. -/
theorem hasInvoiceLink_cleared (links : List LinkRow) (txId i : ℕ) :
    hasInvoiceLink
      (links.filter (fun l => !(l.bank_transaction_id == txId))) txId i =
      false := by
  rw [Bool.eq_false_iff]
  intro hc
  rcases List.any_eq_true.mp hc with ⟨l, hl, hprop⟩
  rcases List.mem_filter.mp hl with ⟨-, hkeep⟩
  simp only [Bool.not_eq_eq_eq_not, Bool.not_true, beq_eq_false_iff_ne] at hkeep
  simp only [Bool.and_eq_true, beq_iff_eq] at hprop
  exact hkeep hprop.1

/-- Expense links never count as invoice links. -/
theorem hasInvoiceLink_expLinks (E : List (ℕ × ExpenseRow)) (txId t : ℕ)
    (ids : List ℕ) (i : ℕ) :
    hasInvoiceLink (expLinksOf E txId ids) t i = false := by
  rw [Bool.eq_false_iff]
  intro hc
  rcases List.any_eq_true.mp hc with ⟨l, hl, hprop⟩
  rcases List.mem_map.mp hl with ⟨eid, -, rfl⟩
  simp at hprop

/-- hasInvoiceLink distributes over append. -/
theorem hasInvoiceLink_append (l1 l2 : List LinkRow) (txId i : ℕ) :
    hasInvoiceLink (l1 ++ l2) txId i =
      (hasInvoiceLink l1 txId i || hasInvoiceLink l2 txId i) := by
  simp [hasInvoiceLink, List.any_append]

/-- hasInvoiceLink on a fresh invoice link tests the invoice id. -/
theorem hasInvoiceLink_single (txId i x : ℕ) (amt : Option ℚ) :
    hasInvoiceLink
      [{ bank_transaction_id := txId, expense_id := none
         invoice_id := some i, amount_matched := amt }] txId x = (i == x) := by
  simp [hasInvoiceLink]

/-- Characterization of a successful expense loop: every id resolves, none
collides with an existing link, the ids are distinct, and the final state
appends the fresh links and marks the expenses. -/
theorem foldLinks_expense_ok_iff (txId : ℕ) :
    ∀ (eids : List ℕ) (st st' : DBState),
      foldLinks (applyExpenseLink txId) st eids = Except.ok st' ↔
        ((∀ e ∈ eids, (lookupRow st.expenses e).isSome = true) ∧
         (∀ e ∈ eids, hasExpenseLink st.links txId e = false) ∧
         eids.Nodup ∧
         st' = { st with
           expenses := markExpenses st.expenses txId eids
           links := st.links ++ expLinksOf st.expenses txId eids }) := by
  intro eids
  induction eids with
  | nil =>
    intro st st'
    constructor
    · intro h
      simp only [foldLinks, Except.ok.injEq] at h
      subst h
      refine ⟨by simp, by simp, List.nodup_nil, ?_⟩
      simp [markExpenses, expLinksOf]
    · rintro ⟨-, -, -, hst⟩
      subst hst
      simp [foldLinks, markExpenses, expLinksOf]
  | cons e rest ih =>
    intro st st'
    cases hl : lookupRow st.expenses e with
    | none =>
      constructor
      · intro h
        exfalso
        unfold foldLinks applyExpenseLink at h
        rw [hl] at h
        exact Except.noConfusion h
      · rintro ⟨h1, -, -, -⟩
        have := h1 e (List.mem_cons_self e rest)
        rw [hl] at this
        simp at this
    | some row =>
      cases hdup : hasExpenseLink st.links txId e with
      | true =>
        have happ : applyExpenseLink txId st e =
            Except.error "unique violation on (bank_transaction_id, expense_id)" := by
          unfold applyExpenseLink
          rw [hl]
          dsimp only
          rw [if_pos hdup]
        have hstep : foldLinks (applyExpenseLink txId) st (e :: rest) =
            Except.error "unique violation on (bank_transaction_id, expense_id)" := by
          show (match applyExpenseLink txId st e with
            | Except.error msg => Except.error msg
            | Except.ok st1 => foldLinks (applyExpenseLink txId) st1 rest) = _
          rw [happ]
        constructor
        · intro h
          exfalso
          rw [hstep] at h
          exact Except.noConfusion h
        · rintro ⟨-, h2, -, -⟩
          have := h2 e (List.mem_cons_self e rest)
          rw [hdup] at this
          exact Bool.noConfusion this
      | false =>
        have happ : applyExpenseLink txId st e = Except.ok
            { st with
              links := st.links ++
                [{ bank_transaction_id := txId, expense_id := some e
                   invoice_id := none, amount_matched := some row.amount }]
              expenses := setRow st.expenses e (markRow txId) } := by
          unfold applyExpenseLink
          rw [hl]
          dsimp only
          rw [if_neg (by rw [hdup]; exact Bool.false_ne_true)]
        have hstep : foldLinks (applyExpenseLink txId) st (e :: rest) =
            foldLinks (applyExpenseLink txId)
              { st with
                links := st.links ++
                  [{ bank_transaction_id := txId, expense_id := some e
                     invoice_id := none, amount_matched := some row.amount }]
                expenses := setRow st.expenses e (markRow txId) } rest := by
          show (match applyExpenseLink txId st e with
            | Except.error msg => Except.error msg
            | Except.ok st1 => foldLinks (applyExpenseLink txId) st1 rest) = _
          rw [happ]
        rw [hstep, ih]
        have hA : ∀ x : ℕ,
            (lookupRow (setRow st.expenses e (markRow txId)) x).isSome =
              (lookupRow st.expenses x).isSome := by
          intro x
          rw [lookupRow_setRow]
          exact Option.isSome_map
        have hB : ∀ x : ℕ,
            hasExpenseLink
              (st.links ++
                [{ bank_transaction_id := txId, expense_id := some e
                   invoice_id := none, amount_matched := some row.amount }])
              txId x =
            (hasExpenseLink st.links txId x || (e == x)) := by
          intro x
          rw [hasExpenseLink_append, hasExpenseLink_single]
        have hC : markExpenses (setRow st.expenses e (markRow txId)) txId rest =
            markExpenses st.expenses txId (e :: rest) := rfl
        have hD : expLinksOf (setRow st.expenses e (markRow txId)) txId rest =
            expLinksOf st.expenses txId rest :=
          expLinksOf_setRow_mark st.expenses txId e txId rest
        have hE : expLinksOf st.expenses txId (e :: rest) =
            { bank_transaction_id := txId, expense_id := some e
              invoice_id := none, amount_matched := some row.amount } ::
              expLinksOf st.expenses txId rest := by
          unfold expLinksOf
          rw [List.map_cons, hl]
          rfl
        constructor
        · rintro ⟨h1, h2, h3, h4⟩
          refine ⟨?_, ?_, ?_, ?_⟩
          · intro x hx
            rcases List.mem_cons.mp hx with rfl | hx
            · rw [hl]; rfl
            · have hx1 := h1 x hx
              rwa [hA x] at hx1
          · intro x hx
            rcases List.mem_cons.mp hx with rfl | hx
            · exact hdup
            · have hx2 := h2 x hx
              rw [hB x] at hx2
              exact (Bool.or_eq_false_iff.mp hx2).1
          · refine List.nodup_cons.mpr ⟨?_, h3⟩
            intro hmem
            have hx2 := h2 e hmem
            rw [hB e] at hx2
            simp at hx2
          · rw [h4, hC, hD, hE]
            simp [List.append_assoc]
        · rintro ⟨h1, h2, h3, h4⟩
          refine ⟨?_, ?_, ?_, ?_⟩
          · intro x hx
            rw [hA x]
            exact h1 x (List.mem_cons_of_mem e hx)
          · intro x hx
            rw [hB x]
            rw [Bool.or_eq_false_iff]
            refine ⟨h2 x (List.mem_cons_of_mem e hx), ?_⟩
            have hne : e ≠ x := by
              intro hcontra
              subst hcontra
              exact (List.nodup_cons.mp h3).1 hx
            simp [hne]
          · exact (List.nodup_cons.mp h3).2
          · rw [h4, hC, hD, hE]
            simp [List.append_assoc]

/-- Characterization of a successful invoice loop: every id resolves, none
collides with an existing link, the ids are distinct, and the final state
appends the fresh links. -/
theorem foldLinks_invoice_ok_iff (txId : ℕ) :
    ∀ (iids : List ℕ) (st st' : DBState),
      foldLinks (applyInvoiceLink txId) st iids = Except.ok st' ↔
        ((∀ i ∈ iids, (lookupRow st.quotes i).isSome = true) ∧
         (∀ i ∈ iids, hasInvoiceLink st.links txId i = false) ∧
         iids.Nodup ∧
         st' = { st with links := st.links ++ invLinksOf st.quotes txId iids }) := by
  intro iids
  induction iids with
  | nil =>
    intro st st'
    constructor
    · intro h
      simp only [foldLinks, Except.ok.injEq] at h
      subst h
      refine ⟨by simp, by simp, List.nodup_nil, ?_⟩
      simp [invLinksOf]
    · rintro ⟨-, -, -, hst⟩
      subst hst
      simp [foldLinks, invLinksOf]
  | cons i rest ih =>
    intro st st'
    cases hl : lookupRow st.quotes i with
    | none =>
      constructor
      · intro h
        exfalso
        unfold foldLinks applyInvoiceLink at h
        rw [hl] at h
        exact Except.noConfusion h
      · rintro ⟨h1, -, -, -⟩
        have := h1 i (List.mem_cons_self i rest)
        rw [hl] at this
        simp at this
    | some row =>
      cases hdup : hasInvoiceLink st.links txId i with
      | true =>
        have happ : applyInvoiceLink txId st i =
            Except.error "unique violation on (bank_transaction_id, invoice_id)" := by
          unfold applyInvoiceLink
          rw [hl]
          dsimp only
          rw [if_pos hdup]
        have hstep : foldLinks (applyInvoiceLink txId) st (i :: rest) =
            Except.error "unique violation on (bank_transaction_id, invoice_id)" := by
          show (match applyInvoiceLink txId st i with
            | Except.error msg => Except.error msg
            | Except.ok st1 => foldLinks (applyInvoiceLink txId) st1 rest) = _
          rw [happ]
        constructor
        · intro h
          exfalso
          rw [hstep] at h
          exact Except.noConfusion h
        · rintro ⟨-, h2, -, -⟩
          have := h2 i (List.mem_cons_self i rest)
          rw [hdup] at this
          exact Bool.noConfusion this
      | false =>
        have happ : applyInvoiceLink txId st i = Except.ok
            { st with links := st.links ++
                [{ bank_transaction_id := txId, expense_id := none
                   invoice_id := some i, amount_matched := some row.total }] } := by
          unfold applyInvoiceLink
          rw [hl]
          dsimp only
          rw [if_neg (by rw [hdup]; exact Bool.false_ne_true)]
        have hstep : foldLinks (applyInvoiceLink txId) st (i :: rest) =
            foldLinks (applyInvoiceLink txId)
              { st with links := st.links ++
                  [{ bank_transaction_id := txId, expense_id := none
                     invoice_id := some i, amount_matched := some row.total }] }
              rest := by
          show (match applyInvoiceLink txId st i with
            | Except.error msg => Except.error msg
            | Except.ok st1 => foldLinks (applyInvoiceLink txId) st1 rest) = _
          rw [happ]
        rw [hstep, ih]
        have hB : ∀ x : ℕ,
            hasInvoiceLink
              (st.links ++
                [{ bank_transaction_id := txId, expense_id := none
                   invoice_id := some i, amount_matched := some row.total }])
              txId x =
            (hasInvoiceLink st.links txId x || (i == x)) := by
          intro x
          rw [hasInvoiceLink_append, hasInvoiceLink_single]
        have hE : invLinksOf st.quotes txId (i :: rest) =
            { bank_transaction_id := txId, expense_id := none
              invoice_id := some i, amount_matched := some row.total } ::
              invLinksOf st.quotes txId rest := by
          unfold invLinksOf
          rw [List.map_cons, hl]
          rfl
        constructor
        · rintro ⟨h1, h2, h3, h4⟩
          refine ⟨?_, ?_, ?_, ?_⟩
          · intro x hx
            rcases List.mem_cons.mp hx with rfl | hx
            · rw [hl]; rfl
            · exact h1 x hx
          · intro x hx
            rcases List.mem_cons.mp hx with rfl | hx
            · exact hdup
            · have hx2 := h2 x hx
              rw [hB x] at hx2
              exact (Bool.or_eq_false_iff.mp hx2).1
          · refine List.nodup_cons.mpr ⟨?_, h3⟩
            intro hmem
            have hx2 := h2 i hmem
            rw [hB i] at hx2
            simp at hx2
          · rw [h4, hE]
            simp [List.append_assoc]
        · rintro ⟨h1, h2, h3, h4⟩
          refine ⟨?_, ?_, ?_, ?_⟩
          · intro x hx
            exact h1 x (List.mem_cons_of_mem i hx)
          · intro x hx
            rw [hB x]
            rw [Bool.or_eq_false_iff]
            refine ⟨h2 x (List.mem_cons_of_mem i hx), ?_⟩
            have hne : i ≠ x := by
              intro hcontra
              subst hcontra
              exact (List.nodup_cons.mp h3).1 hx
            simp [hne]
          · exact (List.nodup_cons.mp h3).2
          · rw [h4, hE]
            simp [List.append_assoc]

/-- Characterization of reconcile_transaction_multi: it succeeds exactly
when the transaction exists, every listed expense and invoice id resolves,
and neither list has duplicates; the end state is reconResult. -/
theorem reconcileMulti_ok_iff (st : DBState) (txId : ℕ) (eids iids : List ℕ)
    (st' : DBState) :
    reconcileMulti st txId eids iids = Except.ok st' ↔
      ((lookupRow st.transactions txId).isSome = true ∧
       (∀ e ∈ eids, (lookupRow st.expenses e).isSome = true) ∧
       eids.Nodup ∧
       (∀ i ∈ iids, (lookupRow st.quotes i).isSome = true) ∧
       iids.Nodup ∧
       st' = reconResult st txId eids iids) := by
  cases htx : lookupRow st.transactions txId with
  | none =>
    constructor
    · intro h
      exfalso
      unfold reconcileMulti at h
      rw [htx] at h
      exact Except.noConfusion h
    · rintro ⟨h1, -⟩
      simp at h1
  | some txrow =>
    have hred : reconcileMulti st txId eids iids =
        (match foldLinks (applyExpenseLink txId) (clearedState st txId) eids with
         | Except.error msg => Except.error msg
         | Except.ok st1 =>
           match foldLinks (applyInvoiceLink txId) st1 iids with
           | Except.error msg => Except.error msg
           | Except.ok st2 =>
             Except.ok { st2 with
               transactions :=
                 setRow st2.transactions txId
                   (fun r => { r with is_reconciled := true }) }) := by
      unfold reconcileMulti clearedState
      rw [htx]
    rw [hred]
    constructor
    · intro h
      rcases hE : foldLinks (applyExpenseLink txId) (clearedState st txId) eids
        with msg | st1
      · rw [hE] at h
        dsimp only at h
        exact absurd h (fun hh => Except.noConfusion hh)
      · rw [hE] at h
        dsimp only at h
        rcases hI : foldLinks (applyInvoiceLink txId) st1 iids with msg | st2
        · rw [hI] at h
          dsimp only at h
          exact absurd h (fun hh => Except.noConfusion hh)
        · rw [hI] at h
          dsimp only at h
          have hfin := (Except.ok.inj h).symm
          obtain ⟨hE1, hE2, hE3, hE4⟩ :=
            (foldLinks_expense_ok_iff txId eids (clearedState st txId) st1).mp hE
          obtain ⟨hI1, hI2, hI3, hI4⟩ :=
            (foldLinks_invoice_ok_iff txId iids st1 st2).mp hI
          subst hE4
          subst hI4
          refine ⟨rfl, ?_, hE3, ?_, hI3, ?_⟩
          · intro e he
            exact hE1 e he
          · intro i hi
            exact hI1 i hi
          · rw [hfin]
            rfl
    · rintro ⟨-, h2, h3, h4, h5, rfl⟩
      have hE : foldLinks (applyExpenseLink txId) (clearedState st txId) eids =
          Except.ok (expensePhase st txId eids) :=
        (foldLinks_expense_ok_iff txId eids (clearedState st txId)
            (expensePhase st txId eids)).mpr
          ⟨fun e he => h2 e he,
           fun e he => hasExpenseLink_cleared st.links txId e,
           h3, rfl⟩
      rw [hE]
      dsimp only
      have hI : foldLinks (applyInvoiceLink txId) (expensePhase st txId eids)
          iids = Except.ok (invoicePhase st txId eids iids) :=
        (foldLinks_invoice_ok_iff txId iids (expensePhase st txId eids)
            (invoicePhase st txId eids iids)).mpr
          ⟨fun i hi => h4 i hi,
           fun i hi => by
            show hasInvoiceLink
              ((clearedState st txId).links ++ expLinksOf st.expenses txId eids)
              txId i = false
            rw [hasInvoiceLink_append, hasInvoiceLink_expLinks,
              Bool.or_false]
            exact hasInvoiceLink_cleared st.links txId i,
           h5, rfl⟩
      rw [hI]
      dsimp only
      rfl

/-- Clearing a transaction's links twice is the same as clearing once. -/
theorem filter_not_bank_idem (links : List LinkRow) (txId : ℕ) :
    (links.filter (fun l => !(l.bank_transaction_id == txId))).filter
      (fun l => !(l.bank_transaction_id == txId)) =
      links.filter (fun l => !(l.bank_transaction_id == txId)) :=
  List.filter_eq_self.mpr (fun _ ha => (List.mem_filter.mp ha).2)

/-- Fresh expense links all belong to the transaction, so clearing removes
them all. -/
theorem filter_not_bank_expLinks (E : List (ℕ × ExpenseRow)) (txId : ℕ)
    (ids : List ℕ) :
    (expLinksOf E txId ids).filter
      (fun l => !(l.bank_transaction_id == txId)) = [] := by
  refine List.filter_eq_nil_iff.mpr ?_
  intro a ha
  rcases List.mem_map.mp ha with ⟨eid, -, rfl⟩
  simp

/-- Fresh invoice links all belong to the transaction, so clearing removes
them all. -/
theorem filter_not_bank_invLinks (Q : List (ℕ × QuoteRow)) (txId : ℕ)
    (ids : List ℕ) :
    (invLinksOf Q txId ids).filter
      (fun l => !(l.bank_transaction_id == txId)) = [] := by
  refine List.filter_eq_nil_iff.mpr ?_
  intro a ha
  rcases List.mem_map.mp ha with ⟨iid, -, rfl⟩
  simp

/-- Cleared links contain nothing of the transaction. -/
theorem filter_bank_cleared (links : List LinkRow) (txId : ℕ) :
    (links.filter (fun l => !(l.bank_transaction_id == txId))).filter
      (fun l => l.bank_transaction_id == txId) = [] := by
  refine List.filter_eq_nil_iff.mpr ?_
  intro a ha
  have := (List.mem_filter.mp ha).2
  simp only [Bool.not_eq_eq_eq_not, Bool.not_true, beq_eq_false_iff_ne] at this
  simp [this]

/-- The fresh expense links all test positive for the transaction. -/
theorem filter_bank_expLinks (E : List (ℕ × ExpenseRow)) (txId : ℕ)
    (ids : List ℕ) :
    (expLinksOf E txId ids).filter
      (fun l => l.bank_transaction_id == txId) = expLinksOf E txId ids := by
  refine List.filter_eq_self.mpr ?_
  intro a ha
  rcases List.mem_map.mp ha with ⟨eid, -, rfl⟩
  simp

/-- The fresh invoice links all test positive for the transaction. -/
theorem filter_bank_invLinks (Q : List (ℕ × QuoteRow)) (txId : ℕ)
    (ids : List ℕ) :
    (invLinksOf Q txId ids).filter
      (fun l => l.bank_transaction_id == txId) = invLinksOf Q txId ids := by
  refine List.filter_eq_self.mpr ?_
  intro a ha
  rcases List.mem_map.mp ha with ⟨iid, -, rfl⟩
  simp

/-- Applying reconResult twice with the same arguments is the same as
applying it once. -/
theorem reconResult_idem (st : DBState) (txId : ℕ) (eids iids : List ℕ) :
    reconResult (reconResult st txId eids iids) txId eids iids =
      reconResult st txId eids iids := by
  unfold reconResult
  dsimp only
  simp only [DBState.mk.injEq]
  refine ⟨?_, ?_, trivial, ?_⟩
  · exact setRow_setRow_idem st.transactions txId _ (fun v => rfl)
  · exact markExpenses_idem st.expenses txId eids
  · rw [expLinksOf_markExpenses]
    rw [List.filter_append, List.filter_append]
    rw [filter_not_bank_idem, filter_not_bank_expLinks, filter_not_bank_invLinks]
    simp

/-! ### Claim theorems for the SQL reconciliation functions -/

/-- C4: reconcile_transaction_multi is idempotent: a second call with the
same transaction and id lists, run on the state a first successful call
produced, succeeds and leaves that state unchanged, because each call
first deletes the transaction's links before inserting the new set. -/
theorem c4_reconcile_multi_idempotent (st : DBState) (txId : ℕ)
    (eids iids : List ℕ) (st' : DBState)
    (h : reconcileMulti st txId eids iids = Except.ok st') :
    reconcileMulti st' txId eids iids = Except.ok st' := by
  rw [reconcileMulti_ok_iff] at h
  obtain ⟨h1, h2, h3, h4, h5, rfl⟩ := h
  rw [reconcileMulti_ok_iff]
  refine ⟨?_, ?_, h3, ?_, h5, (reconResult_idem st txId eids iids).symm⟩
  · show (lookupRow (setRow st.transactions txId
        (fun r => { r with is_reconciled := true })) txId).isSome = true
    rw [lookupRow_setRow]
    exact Option.isSome_map.trans h1
  · intro e he
    show (lookupRow (markExpenses st.expenses txId eids) e).isSome = true
    rw [lookupRow_markExpenses]
    exact Option.isSome_map.trans (h2 e he)
  · intro i hi
    exact h4 i hi

/-- C4 witness: reconciling the demo transaction against expense 10 and
invoice 20 a second time reproduces the same state. -/
theorem c4_reconcile_multi_idempotent_witness :
    reconcileMulti demoAfterEI 1 [10] [20] = Except.ok demoAfterEI :=
  c4_reconcile_multi_idempotent demoDB 1 [10] [20] demoAfterEI (by rfl)

/-- C5 counterexample: a successful reconcile_transaction_multi call with
both id lists empty leaves the transaction flagged reconciled although it
has no reconciliation link, so the flag is not equivalent to link
existence. -/
theorem c5_flag_without_links_counterexample :
    reconcileMulti demoDB 1 [] [] = Except.ok demoAfterEmpty ∧
    demoAfterEmpty.links.filter (fun l => l.bank_transaction_id == 1) = [] ∧
    (lookupRow demoAfterEmpty.transactions 1).map (fun r => r.is_reconciled) =
      some true := by
  refine ⟨by rfl, by rfl, by rfl⟩

/-- C5 amended: after every successful reconcile_transaction_multi call the
transaction's isReconciled flag is true unconditionally, and the
transaction has exactly one link per listed expense and invoice id; hence
the flag is true whenever a link exists, but a call with two empty lists
also sets it with zero links. -/
theorem c5_reconciled_flag_after_call (st : DBState) (txId : ℕ)
    (eids iids : List ℕ) (st' : DBState)
    (h : reconcileMulti st txId eids iids = Except.ok st') :
    (lookupRow st'.transactions txId).map (fun r => r.is_reconciled) =
      some true ∧
    (st'.links.filter (fun l => l.bank_transaction_id == txId)).length =
      eids.length + iids.length := by
  rw [reconcileMulti_ok_iff] at h
  obtain ⟨h1, h2, h3, h4, h5, rfl⟩ := h
  constructor
  · show (lookupRow (setRow st.transactions txId
        (fun r => { r with is_reconciled := true })) txId).map
        (fun r => r.is_reconciled) = some true
    rw [lookupRow_setRow, Option.map_map]
    rcases ho : lookupRow st.transactions txId with _ | r
    · rw [ho] at h1
      simp at h1
    · simp
  · show ((st.links.filter (fun l => !(l.bank_transaction_id == txId)) ++
        expLinksOf st.expenses txId eids ++
        invLinksOf st.quotes txId iids).filter
        (fun l => l.bank_transaction_id == txId)).length =
      eids.length + iids.length
    rw [List.filter_append, List.filter_append]
    rw [filter_bank_cleared, filter_bank_expLinks, filter_bank_invLinks]
    simp [expLinksOf, invLinksOf]

/-- C5 witness: reconciling the demo transaction against expense 10 leaves
the flag true with exactly one link. -/
theorem c5_reconciled_flag_after_call_witness :
    (lookupRow demoAfterE.transactions 1).map (fun r => r.is_reconciled) =
      some true ∧
    (demoAfterE.links.filter
      (fun l => l.bank_transaction_id == 1)).length = 1 := by
  have h := c5_reconciled_flag_after_call demoDB 1 [10] [] demoAfterE (by rfl)
  exact ⟨h.1, h.2⟩

/-- C9: running unreconcile_transaction right after a successful single
expense reconciliation clears the transaction's reconciled flag and legacy
references, clears the expense's flag and back-reference, removes the
transaction's links, and does not touch the quotes (invoices are not
un-paid). -/
theorem c9_unreconcile_after_single_reconcile (st : DBState) (txId eid : ℕ)
    (st' : DBState)
    (h : reconcileMulti st txId [eid] [] = Except.ok st') :
    (lookupRow (unreconcileTransaction st' txId).transactions txId).map
      (fun r => (r.is_reconciled, r.reconciled_expense_id,
        r.reconciled_invoice_id)) = some (false, none, none) ∧
    (lookupRow (unreconcileTransaction st' txId).expenses eid).map
      (fun r => (r.is_reconciled, r.reconciled_transaction_id)) =
      some (false, none) ∧
    (unreconcileTransaction st' txId).links.filter
      (fun l => l.bank_transaction_id == txId) = [] ∧
    (unreconcileTransaction st' txId).quotes = st.quotes := by
  rw [reconcileMulti_ok_iff] at h
  obtain ⟨h1, h2, h3, h4, h5, rfl⟩ := h
  refine ⟨?_, ?_, ?_, rfl⟩
  · show (lookupRow (setRow (setRow st.transactions txId
        (fun r => { r with is_reconciled := true })) txId
        (fun r => { r with is_reconciled := false
                           reconciled_expense_id := none
                           reconciled_invoice_id := none })) txId).map
      (fun r => (r.is_reconciled, r.reconciled_expense_id,
        r.reconciled_invoice_id)) = some (false, none, none)
    rw [lookupRow_setRow, lookupRow_setRow, Option.map_map, Option.map_map]
    rcases ho : lookupRow st.transactions txId with _ | r
    · rw [ho] at h1
      simp at h1
    · simp
  · have hlk : lookupRow
        (unreconcileTransaction (reconResult st txId [eid] []) txId).expenses
        eid =
        (lookupRow (markExpenses st.expenses txId [eid]) eid).map
          (fun v => if v.reconciled_transaction_id == some txId then
            { v with is_reconciled := false
                     reconciled_transaction_id := none } else v) :=
      lookupRow_mapRows (markExpenses st.expenses txId [eid])
        (fun _ v => if v.reconciled_transaction_id == some txId then
          { v with is_reconciled := false
                   reconciled_transaction_id := none } else v) eid
    rw [hlk, lookupRow_markExpenses, Option.map_map]
    rcases ho : lookupRow st.expenses eid with _ | r
    · have := h2 eid (List.mem_cons_self eid [])
      rw [ho] at this
      simp at this
    · simp [markRow]
  · show ((st.links.filter (fun l => !(l.bank_transaction_id == txId)) ++
        expLinksOf st.expenses txId [eid] ++
        invLinksOf st.quotes txId []).filter
        (fun l => !(l.bank_transaction_id == txId))).filter
        (fun l => l.bank_transaction_id == txId) = []
    simp only [List.filter_append, filter_not_bank_idem, filter_not_bank_expLinks,
      filter_not_bank_invLinks, filter_bank_cleared, List.append_nil,
      List.nil_append]

/-- C9 witness: reconciling then unreconciling the demo transaction against
expense 10 restores the cleared flags and removes the link, leaving quotes
untouched. -/
theorem c9_unreconcile_after_single_reconcile_witness :
    (lookupRow (unreconcileTransaction demoAfterE 1).transactions 1).map
      (fun r => (r.is_reconciled, r.reconciled_expense_id,
        r.reconciled_invoice_id)) = some (false, none, none) ∧
    (lookupRow (unreconcileTransaction demoAfterE 1).expenses 10).map
      (fun r => (r.is_reconciled, r.reconciled_transaction_id)) =
      some (false, none) ∧
    (unreconcileTransaction demoAfterE 1).links.filter
      (fun l => l.bank_transaction_id == 1) = [] ∧
    (unreconcileTransaction demoAfterE 1).quotes = demoDB.quotes :=
  c9_unreconcile_after_single_reconcile demoDB 1 10 demoAfterE (by rfl)

end TradeSync
